import Mathlib

/-!
Shallow embedding of the go-Todo service core (Fiber + MongoDB todo API).

The embedded code is the variant with the middleware pipeline
(rate limiter, retrying database initializer, validated handlers); the
plain variant of `validateTodo` that lacks the whitespace check is
embedded separately as `validateTodoMainGo`.

Modelling conventions:
  - `time.Time` values and `time.Duration` windows are natural numbers
    (seconds); Go's `now.Sub(t) > window` becomes `window < now - t`
    (truncated Nat subtraction agrees with Go for `t ≤ now`, and both
    sides reject `t > now` since a negative duration never exceeds a
    positive window).
  - The rate-limiter map `map[string][]time.Time` is a total function
    `String → List Nat`; a missing key reads as the empty slice, exactly
    as Go's map read of a missing key yields a nil slice.
  - MongoDB is a list of documents plus a counter for ObjectID
    generation; transport failures are explicit Boolean oracles.
  - Handlers return a `Response` (status code plus body shape); the body
    shapes mirror the exact literals in the source (`fiber.Map{"error": ...}`,
    `fiber.Map{"success": true}`, the misspelled `"succsess"` key, and the
    standardized `APIError` struct).
-/

namespace GoTodo

/-! ### Todo data model and validation -/

/-- `Todo`: the ObjectID is modelled as its hex string, `""` standing for
the zero value (`omitempty`). -/
structure Todo where
  id : String
  title : String
  done : Bool
deriving Repr, DecidableEq

/-- Go `unicode.IsSpace`: '\t', '\n', '\v', '\f', '\r', ' ', U+0085, U+00A0,
and the Unicode White_Space code points above Latin-1. -/
def goIsSpace (c : Char) : Bool :=
  c = ' ' || c = '\t' || c = '\n' || c = Char.ofNat 11 || c = Char.ofNat 12 ||
  c = '\r' || c = Char.ofNat 0x85 || c = Char.ofNat 0xA0 ||
  c = Char.ofNat 0x1680 || (0x2000 ≤ c.toNat && c.toNat ≤ 0x200A) ||
  c = Char.ofNat 0x2028 || c = Char.ofNat 0x2029 || c = Char.ofNat 0x202F ||
  c = Char.ofNat 0x205F || c = Char.ofNat 0x3000

/-- `strings.TrimSpace`: strip leading and trailing Unicode space. -/
def trimSpace (s : String) : String :=
  String.mk (((s.data.dropWhile goIsSpace).reverse.dropWhile goIsSpace).reverse)

/-- `fmt.Errorf("title is required")` in `validateTodo`. -/
def errTitleRequired : String := "title is required"

/-- `fmt.Errorf("title must be less than 100 characters")` in `validateTodo`. -/
def errTitleTooLong : String := "title must be less than 100 characters"

/-- `fmt.Errorf("title cannot be only whitespace")` in `validateTodo`. -/
def errTitleWhitespace : String := "title cannot be only whitespace"

/-- `validateTodo` (pipeline variant): empty, then `len(todo.Title) > 100`
(Go `len` on a string counts UTF-8 bytes), then all-whitespace; first
failing check wins. `none` = valid. -/
def validateTodo (todo : Todo) : Option String :=
  if todo.title = "" then some errTitleRequired
  else if 100 < todo.title.utf8ByteSize then some errTitleTooLong
  else if trimSpace todo.title = "" then some errTitleWhitespace
  else none

/-- `validateTodo` in the plain `main.go` variant: same empty and
byte-length checks, no whitespace check. -/
def validateTodoMainGo (todo : Todo) : Option String :=
  if todo.title = "" then some errTitleRequired
  else if 100 < todo.title.utf8ByteSize then some errTitleTooLong
  else none

/-! ### Responses and the standardized error body -/

/-- `APIError` struct: `{status, message, code, detail}`. -/
structure APIError where
  status : Nat
  message : String
  code : String
  detail : String
deriving Repr, DecidableEq

/-- The struct literal built inside `handleAPIError`. -/
def mkAPIError (status : Nat) (message : String) : APIError :=
  { status := status
    message := message
    code := "ERR_" ++ toString status
    detail := "Detailed explanation for " ++ toString status ++ " error" }

/-- The JSON body shapes the handlers actually produce. -/
inductive RespBody
  | apiErr (e : APIError)
  | errMap (value : String)
  | todoBody (t : Todo)
  | todoList (ts : List Todo)
  | successMap
  | succsessMap (value : String)
  | goErr (msg : String)
deriving Repr, DecidableEq

/-- Does a body have the standardized `APIError` shape? -/
def isApiErrBody : RespBody → Bool
  | .apiErr _ => true
  | _ => false

/-- An HTTP response: status code plus body. -/
structure Response where
  status : Nat
  body : RespBody
deriving Repr, DecidableEq

/-- `handleAPIError(c, status, message)`. -/
def handleAPIError (status : Nat) (message : String) : Response :=
  ⟨status, .apiErr (mkAPIError status message)⟩

/-! ### Rate limiter state (`RateLimiter`, `NewRateLimiter`) -/

/-- `RateLimiter.requests : map[string][]time.Time`, missing key = empty. -/
def RLState : Type := String → List Nat

/-- `NewRateLimiter()`: empty map. -/
def emptyRL : RLState := fun _ => []

/-- One timestamp is stale when `now.Sub(t) > window`. -/
def staleAt (now window t : Nat) : Bool := decide (window < now - t)

/-- The compaction loop body: scan for the first `t` with
`now.Sub(t) > window`; on a hit the Go code sets `requests = requests[i+1:]`
and breaks, i.e. it returns the suffix after the first stale entry.
`none` means no stale entry was found (loop ran through). -/
def dropThroughStale (now window : Nat) : List Nat → Option (List Nat)
  | [] => none
  | t :: rest =>
    if staleAt now window t then some rest else dropThroughStale now window rest

/-- Result of the `for i, t := range requests` compaction scan in
`RateLimiter.Limit`: the suffix after the first stale entry when one
exists, the original slice otherwise. -/
def compactRequests (now window : Nat) (l : List Nat) : List Nat :=
  (dropThroughStale now window l).getD l

/-- One call of the handler returned by `RateLimiter.Limit(maxRequests, window)`
for client `ip` (`c.IP()`) at time `now`. Returns the post-call state and
`none` when the request was admitted (`c.Next()`), or the 429 response on
rejection. On rejection the map entry is NOT written back: the local
compacted slice is discarded and `rl.requests[ip]` keeps its previous
value. -/
def limitStep (maxRequests window : Nat) (rl : RLState) (ip : String) (now : Nat) :
    RLState × Option Response :=
  let requests := compactRequests now window (rl ip)
  if maxRequests ≤ requests.length then
    (rl, some (handleAPIError 429 "Too many requests"))
  else
    (fun k => if k = ip then requests ++ [now] else rl k, none)

/-- A trace of calls (client, time) starting from `NewRateLimiter()`. -/
def runLimiter (maxRequests window : Nat) (events : List (String × Nat)) : RLState :=
  events.foldl (fun rl e => (limitStep maxRequests window rl e.1 e.2).1) emptyRL

/-- `app.Use(limiter.Limit(100, time.Minute))` in `main`. -/
def mainMaxRequests : Nat := 100

/-- `time.Minute` in seconds, as passed in `main`. -/
def mainWindowSeconds : Nat := 60

/-! ### The Mongo store -/

/-- Hex digit characters for ObjectID generation. -/
def hexDigitChar (n : Nat) : Char :=
  if n < 10 then Char.ofNat (48 + n) else Char.ofNat (87 + n)

/-- `k` hex characters encoding `n` (driver-generated ObjectIDs are
24 hex characters; only their shape matters to the model). -/
def hexChars : Nat → Nat → List Char
  | 0, _ => []
  | k + 1, n => hexDigitChar (n % 16) :: hexChars k (n / 16)

/-- The hex form of the `n`-th driver-generated ObjectID. -/
def objectIdHexOf (n : Nat) : String := String.mk (hexChars 24 n)

/-- The `todos` collection plus the driver's ObjectID generator state. -/
structure TodoStore where
  todos : List Todo
  nextOid : Nat
deriving Repr, DecidableEq

/-- An empty collection. -/
def emptyStore : TodoStore := ⟨[], 0⟩

/-- `collection.InsertOne`: a document whose `_id` is the zero value gets a
driver-generated ObjectID; a client-supplied `_id` is kept. Returns
`InsertedID` and the new collection. -/
def insertOne (store : TodoStore) (todo : Todo) : String × TodoStore :=
  let oid := if todo.id = "" then objectIdHexOf store.nextOid else todo.id
  (oid, ⟨store.todos ++ [{ todo with id := oid }], store.nextOid + 1⟩)

/-- `primitive.ObjectIDFromHex` accepts 0-9, a-f, A-F. -/
def isHexDigitGo (c : Char) : Bool :=
  c.isDigit || ('a' ≤ c && c ≤ 'f') || ('A' ≤ c && c ≤ 'F')

/-- `primitive.ObjectIDFromHex(s)`: errors unless `s` is exactly 24 hex
characters; the decoded ObjectID is modelled by the lowercased hex string. -/
def objectIDFromHex (s : String) : Option String :=
  if s.length = 24 && s.data.all isHexDigitGo then
    some (String.mk (s.data.map Char.toLower))
  else
    none

/-! ### Handlers -/

/-- Outcome of `c.BodyParser(todo)`: failure, or the parsed struct
(JSON fields `_id`, `title`, `done`; absent fields keep Go zero values). -/
inductive BodyResult
  | parseFail
  | parsed (t : Todo)

/-- `getHandler`: `collection.Find` then decode each document. The sort on
the nonexistent `created_at` field leaves the stored order. The Boolean
oracles stand for transport and decode failures. -/
def getHandler (store : TodoStore) (queryFails decodeFails : Bool) : Response :=
  if queryFails then handleAPIError 500 "Database query failed"
  else if decodeFails then handleAPIError 500 "Failed to decode todo"
  else ⟨200, .todoList store.todos⟩

/-- `postHandler`: parse body, validate, insert, echo the todo with the
assigned id at 201. The third component records whether `InsertOne` was
reached (`true` exactly when a store call occurred). -/
def postHandler (body : BodyResult) (store : TodoStore) (insertFails : Bool) :
    Response × TodoStore × Bool :=
  match body with
  | .parseFail => (handleAPIError 400 "Invalid request body", store, false)
  | .parsed todo =>
    match validateTodo todo with
    | some msg => (handleAPIError 400 msg, store, false)
    | none =>
      if insertFails then (⟨500, .errMap "error adding todo"⟩, store, true)
      else
        let oid := (insertOne store todo).1
        (⟨201, .todoBody { todo with id := oid }⟩, (insertOne store todo).2, true)

/-- `updateHandler`: parse the `:id` parameter, then
`UpdateOne({_id: oid}, {$set: {done: true}})` unconditionally; 200 with
`{"success": true}` whether or not a document matched. -/
def updateHandler (idParam : String) (store : TodoStore) (transportFails : Bool) :
    Response × TodoStore :=
  match objectIDFromHex idParam with
  | none => (⟨400, .errMap "empty id"⟩, store)
  | some oid =>
    if transportFails then (⟨500, .goErr "update error"⟩, store)
    else
      (⟨200, .successMap⟩,
        { store with
            todos := store.todos.map fun t =>
              if t.id = oid then { t with done := true } else t })

/-- `delHandler`: parse the `:id` parameter, then `DeleteOne({_id: oid})`;
200 with `{"succsess": "todo deleted successfully"}` whether or not a
document matched. -/
def delHandler (idParam : String) (store : TodoStore) (transportFails : Bool) :
    Response × TodoStore :=
  match objectIDFromHex idParam with
  | none => (⟨400, .errMap "empty id"⟩, store)
  | some oid =>
    if transportFails then (⟨500, .goErr "delete error"⟩, store)
    else
      (⟨200, .succsessMap "todo deleted successfully"⟩,
        { store with todos := store.todos.filter fun t => t.id != oid })

/-! ### Database initialization (`initializeDatabase`, retrying variant) -/

/-- The retry loop of `initializeDatabase`, over the list of remaining
attempt indices: attempt `i` connects and, only if the connect succeeded,
pings (`connectOk i && pingOk i`); on success the client is returned at
once (the attempt index stands for the model's client value), otherwise
the code logs, sleeps 2 seconds — also after the final attempt — and
retries. `maxRetries` is the literal 3, so the exhaustion message is
fixed. The second component lists the sleep durations in order. -/
def initAttempts (connectOk pingOk : Nat → Bool) : List Nat → Except String Nat × List Nat
  | [] => (.error "failed to connect after 3 attempts", [])
  | i :: rest =>
    if connectOk i && pingOk i then (.ok i, [])
    else
      ((initAttempts connectOk pingOk rest).1,
        2 :: (initAttempts connectOk pingOk rest).2)

/-- `initializeDatabase(uri)`: `for i := 0; i < maxRetries; i++` with
`maxRetries := 3`. -/
def initializeDatabase (connectOk pingOk : Nat → Bool) : Except String Nat × List Nat :=
  initAttempts connectOk pingOk [0, 1, 2]

/-- What `main` does with the initializer's result. -/
inductive StartupOutcome
  | running (clientAttempt : Nat)
  | fatal (msg : String)
deriving Repr, DecidableEq

/-- `main`: `log.Fatal(err)` on initializer failure, otherwise the process
keeps running with the returned client. -/
def mainStartup (connectOk pingOk : Nat → Bool) : StartupOutcome :=
  match (initializeDatabase connectOk pingOk).1 with
  | .ok i => .running i
  | .error e => .fatal e

/-! ### Helper lemmas: compaction scan -/

theorem dropThroughStale_none_of_fresh (now window : Nat) (l : List Nat)
    (h : ∀ t ∈ l, now - t ≤ window) : dropThroughStale now window l = none := by
  induction l with
  | nil => rfl
  | cons t rest ih =>
    have ht : staleAt now window t = false := by
      simp only [staleAt, decide_eq_false_iff_not]
      exact Nat.not_lt.mpr (h t (List.mem_cons_self t rest))
    simp only [dropThroughStale, ht, Bool.false_eq_true, if_false]
    exact ih fun u hu => h u (List.mem_cons_of_mem t hu)

theorem dropThroughStale_fresh_of_none (now window : Nat) (l : List Nat)
    (h : dropThroughStale now window l = none) : ∀ t ∈ l, now - t ≤ window := by
  induction l with
  | nil => simp
  | cons t rest ih =>
    by_cases hs : staleAt now window t = true
    · simp [dropThroughStale, hs] at h
    · intro u hu
      have hrest : dropThroughStale now window rest = none := by
        simpa [dropThroughStale, hs] using h
      rcases List.mem_cons.mp hu with h1 | h2
      · subst h1
        simp only [staleAt, decide_eq_true_eq] at hs
        exact Nat.not_lt.mp hs
      · exact ih hrest u h2

theorem dropThroughStale_some_length (now window : Nat) (l r : List Nat)
    (h : dropThroughStale now window l = some r) : r.length < l.length := by
  induction l generalizing r with
  | nil => cases h
  | cons t rest ih =>
    by_cases hs : staleAt now window t = true
    · simp only [dropThroughStale, hs, if_true, Option.some.injEq] at h
      subst h
      simp
    · simp only [dropThroughStale, hs, if_false] at h
      calc r.length < rest.length := ih r (by simpa [hs] using h)
        _ < (t :: rest).length := by simp

theorem dropThroughStale_isSome_of_stale (now window : Nat) (l : List Nat)
    (h : ∃ t ∈ l, window < now - t) : (dropThroughStale now window l).isSome = true := by
  induction l with
  | nil => simp at h
  | cons t rest ih =>
    by_cases hs : staleAt now window t = true
    · simp [dropThroughStale, hs]
    · have ht : ¬ window < now - t := by
        simpa [staleAt, decide_eq_true_eq] using hs
      rcases h with ⟨u, hu, hlt⟩
      rcases List.mem_cons.mp hu with h1 | h2
      · exact absurd (h1 ▸ hlt) ht
      · simpa [dropThroughStale, hs] using ih ⟨u, h2, hlt⟩

theorem compactRequests_of_fresh (now window : Nat) (l : List Nat)
    (h : ∀ t ∈ l, now - t ≤ window) : compactRequests now window l = l := by
  simp [compactRequests, dropThroughStale_none_of_fresh now window l h]

theorem compactRequests_length_le (now window : Nat) (l : List Nat) :
    (compactRequests now window l).length ≤ l.length := by
  unfold compactRequests
  cases h : dropThroughStale now window l with
  | none => simp
  | some r => simpa using Nat.le_of_lt (dropThroughStale_some_length now window l r h)

theorem compactRequests_length_lt (now window : Nat) (l : List Nat)
    (h : ∃ t ∈ l, window < now - t) : (compactRequests now window l).length < l.length := by
  have hsome := dropThroughStale_isSome_of_stale now window l h
  cases hd : dropThroughStale now window l with
  | none => rw [hd] at hsome; cases hsome
  | some r =>
    unfold compactRequests
    rw [hd]
    simpa using dropThroughStale_some_length now window l r hd

theorem compactRequests_fresh_of_count_le_one (now window : Nat) (l : List Nat)
    (h : l.countP (staleAt now window) ≤ 1) :
    ∀ t ∈ compactRequests now window l, now - t ≤ window := by
  induction l with
  | nil => simp [compactRequests, dropThroughStale]
  | cons t rest ih =>
    by_cases hs : staleAt now window t = true
    · have hcount : rest.countP (staleAt now window) = 0 := by
        have hc : (t :: rest).countP (staleAt now window)
            = rest.countP (staleAt now window) + 1 := List.countP_cons_of_pos _ rest hs
        omega
      have hcompact : compactRequests now window (t :: rest) = rest := by
        simp [compactRequests, dropThroughStale, hs]
      intro u hu
      rw [hcompact] at hu
      have hfresh := List.countP_eq_zero.mp hcount u hu
      simp only [staleAt, decide_eq_true_eq] at hfresh
      exact Nat.not_lt.mp hfresh
    · have hcount : rest.countP (staleAt now window) ≤ 1 := by
        have hc : (t :: rest).countP (staleAt now window)
            = rest.countP (staleAt now window) := List.countP_cons_of_neg _ rest hs
        omega
      have ht : now - t ≤ window := by
        simp only [staleAt, decide_eq_true_eq] at hs
        exact Nat.not_lt.mp hs
      intro u hu
      cases hd : dropThroughStale now window rest with
      | none =>
        have hcompact : compactRequests now window (t :: rest) = t :: rest := by
          simp [compactRequests, dropThroughStale, hs, hd]
        rw [hcompact] at hu
        rcases List.mem_cons.mp hu with h1 | h2
        · exact h1 ▸ ht
        · exact dropThroughStale_fresh_of_none now window rest hd u h2
      | some r =>
        have hcrest : compactRequests now window rest = r := by
          simp [compactRequests, hd]
        have hcompact : compactRequests now window (t :: rest) = r := by
          simp [compactRequests, dropThroughStale, hs, hd]
        rw [hcompact] at hu
        exact ih hcount u (hcrest ▸ hu)

/-! ### Helper lemmas: store ids and limiter invariant -/

theorem hexCharsLength (k n : Nat) : (hexChars k n).length = k := by
  induction k generalizing n with
  | zero => rfl
  | succ k ih => simp [hexChars, ih]

theorem objectIdHexOf_ne_empty (n : Nat) : objectIdHexOf n ≠ "" := by
  intro h
  have hlen : (objectIdHexOf n).length = 24 := hexCharsLength 24 n
  rw [h] at hlen
  exact absurd hlen (by decide)

theorem limitStep_preserves_bound (maxRequests window : Nat) (rl : RLState) (ip : String)
    (now : Nat) (h : ∀ k, (rl k).length ≤ maxRequests) (k : String) :
    ((limitStep maxRequests window rl ip now).1 k).length ≤ maxRequests := by
  by_cases hge : maxRequests ≤ (compactRequests now window (rl ip)).length
  · simpa [limitStep, hge] using h k
  · by_cases hk : k = ip
    · subst hk
      have hlt : (compactRequests now window (rl k)).length < maxRequests := Nat.not_le.mp hge
      have hstate : (limitStep maxRequests window rl k now).1 k
          = compactRequests now window (rl k) ++ [now] := by
        simp [limitStep, hge]
      rw [hstate]
      simp only [List.length_append, List.length_cons, List.length_nil]
      omega
    · simpa [limitStep, hge, hk] using h k

/-! ### Claims about the rate limiter -/

/-- Claim C1: for a client whose stored sequence holds `maxRequests`
admitted timestamps all within `window` of `now`, the next call is
rejected with the 429 error response and the state is untouched; once
`window` has elapsed past the client's oldest admitted timestamp (so some
stored entry is stale), a subsequent call is admitted again. The policy
installed in `main` is 100 requests per rolling 60-second window, keyed by
`c.IP()`. -/
theorem rateLimiterWindowBehavior (maxRequests window : Nat) (rl : RLState)
    (ip : String) (now : Nat) :
    (((rl ip).length = maxRequests ∧ ∀ t ∈ rl ip, now - t ≤ window) →
      limitStep maxRequests window rl ip now
        = (rl, some (handleAPIError 429 "Too many requests"))) ∧
    (((rl ip).length = maxRequests ∧ ∃ t ∈ rl ip, window < now - t) →
      (limitStep maxRequests window rl ip now).2 = none) ∧
    mainMaxRequests = 100 ∧ mainWindowSeconds = 60 := by
  refine ⟨?_, ?_, rfl, rfl⟩
  · rintro ⟨hlen, hfresh⟩
    have hc : compactRequests now window (rl ip) = rl ip :=
      compactRequests_of_fresh now window (rl ip) hfresh
    have hge : maxRequests ≤ (compactRequests now window (rl ip)).length := by
      rw [hc, hlen]
    simp [limitStep, hge]
  · rintro ⟨hlen, hstale⟩
    have hlt : (compactRequests now window (rl ip)).length < maxRequests := by
      have := compactRequests_length_lt now window (rl ip) hstale
      omega
    simp [limitStep, Nat.not_le.mpr hlt]

/-- A full window of two admitted requests for every client. -/
def rlFullC1 : RLState := fun _ => [5, 6]

/-- A window of two requests whose oldest entry has aged out. -/
def rlStaleC1 : RLState := fun _ => [0, 6]

theorem rateLimiterWindowBehaviorWitness :
    limitStep 2 10 rlFullC1 "a" 7 = (rlFullC1, some (handleAPIError 429 "Too many requests")) ∧
    (limitStep 2 10 rlStaleC1 "a" 20).2 = none :=
  ⟨(rateLimiterWindowBehavior 2 10 rlFullC1 "a" 7).1 ⟨rfl, by decide⟩,
   (rateLimiterWindowBehavior 2 10 rlStaleC1 "a" 20).2.1 ⟨rfl, by decide⟩⟩

/-- State holding two entries that are both older than the window at time
100 with window 10: the compaction scan of the admitting call drops only
the prefix through the first stale entry, so the stale timestamp 1
survives into the stored sequence. -/
def rlTwoStale : RLState := fun _ => [0, 1]

/-- Claim C7 counterexample: immediately after the admit call at time 100
(window 10) compacts the sequence `[0, 1]`, the stored sequence is
`[1, 100]`, and the surviving entry 1 is older than the window. -/
theorem compactionStaleSurvivorCounterexample :
    (limitStep 100 10 rlTwoStale "c" 100).2 = none ∧
    (limitStep 100 10 rlTwoStale "c" 100).1 "c" = [1, 100] ∧
    staleAt 100 10 1 = true := by
  refine ⟨by decide, by decide, by decide⟩

/-- Claim C7 (amended): compaction removes only the prefix up to and
including the first entry older than `window`, so a stale entry can
survive when two or more are stale; when at most one stored entry is
stale, every timestamp in the sequence stored by an admitting call is
within `window` of `now`. -/
theorem compactionFreshAmended (maxRequests window : Nat) (rl : RLState)
    (ip : String) (now : Nat)
    (hcount : (rl ip).countP (staleAt now window) ≤ 1)
    (hallow : (limitStep maxRequests window rl ip now).2 = none) :
    ∀ t ∈ (limitStep maxRequests window rl ip now).1 ip, now - t ≤ window := by
  by_cases hge : maxRequests ≤ (compactRequests now window (rl ip)).length
  · simp [limitStep, hge] at hallow
  · intro t ht
    have hstate : (limitStep maxRequests window rl ip now).1 ip
        = compactRequests now window (rl ip) ++ [now] := by
      simp [limitStep, hge]
    rw [hstate] at ht
    rcases List.mem_append.mp ht with h1 | h2
    · exact compactRequests_fresh_of_count_le_one now window (rl ip) hcount t h1
    · have : t = now := by simpa using h2
      omega

/-- A client state with a single stale entry. -/
def rlOneStale : RLState := fun _ => [5]

theorem compactionFreshAmendedWitness :
    (rlOneStale "a").countP (staleAt 7 1) ≤ 1 ∧
    (limitStep 10 1 rlOneStale "a" 7).2 = none ∧
    ∀ t ∈ (limitStep 10 1 rlOneStale "a" 7).1 "a", 7 - t ≤ 1 :=
  ⟨by decide, by decide, compactionFreshAmended 10 1 rlOneStale "a" 7 (by decide) (by decide)⟩

/-- Claim C8: a rejected call records nothing — when the limiter answers
429, the whole request map (in particular the client's stored timestamp
sequence) is exactly the map before the call; even the compacted local
slice is discarded. -/
theorem rejectedCallLeavesStateUnchanged (maxRequests window : Nat) (rl : RLState)
    (ip : String) (now : Nat)
    (hrej : (limitStep maxRequests window rl ip now).2 ≠ none) :
    (limitStep maxRequests window rl ip now).1 = rl := by
  by_cases hge : maxRequests ≤ (compactRequests now window (rl ip)).length
  · simp [limitStep, hge]
  · simp [limitStep, hge] at hrej

/-- A client state already at a one-request limit. -/
def rlAtLimit : RLState := fun _ => [5]

theorem rejectedCallLeavesStateUnchangedWitness :
    (limitStep 1 10 rlAtLimit "a" 7).2 ≠ none ∧
    (limitStep 1 10 rlAtLimit "a" 7).1 = rlAtLimit :=
  ⟨by decide, rejectedCallLeavesStateUnchanged 1 10 rlAtLimit "a" 7 (by decide)⟩

/-- Claim C9: in every state reachable from `NewRateLimiter()` by any
trace of calls, every client's stored sequence has length at most
`maxRequests`: an admitting call appends one timestamp only when the
post-compaction count is strictly below the bound, and a rejecting call
leaves the sequence as it was (no truncation is ever performed). -/
theorem reachableStateLengthBounded (maxRequests window : Nat)
    (events : List (String × Nat)) (k : String) :
    ((runLimiter maxRequests window events) k).length ≤ maxRequests := by
  suffices h : ∀ rl : RLState, (∀ j, (rl j).length ≤ maxRequests) →
      ∀ j, ((events.foldl (fun rl e => (limitStep maxRequests window rl e.1 e.2).1) rl) j).length
        ≤ maxRequests by
    exact h emptyRL (fun j => by simp [emptyRL]) k
  induction events with
  | nil => intro rl h j; exact h j
  | cons e rest ih =>
    intro rl h j
    simp only [List.foldl_cons]
    exact ih _ (fun j' => limitStep_preserves_bound maxRequests window rl e.1 e.2 h j') j

/-! ### Claims about validation and the todo handlers -/

/-- Claim C2: `validateTodo` rejects, in fixed short-circuit order, an
empty title, then a title over 100 bytes, then an all-whitespace title,
each with its own error; `postHandler` turns any validation error into an
HTTP 400 via `handleAPIError` with the store untouched and no insert
attempted, and for a valid title it always reaches the `InsertOne` call. -/
theorem validationGatesInsert (t : Todo) (store : TodoStore) (insertFails : Bool) :
    (t.title = "" → validateTodo t = some errTitleRequired) ∧
    (t.title ≠ "" → 100 < t.title.utf8ByteSize → validateTodo t = some errTitleTooLong) ∧
    (t.title ≠ "" → t.title.utf8ByteSize ≤ 100 → trimSpace t.title = "" →
      validateTodo t = some errTitleWhitespace) ∧
    (t.title ≠ "" → t.title.utf8ByteSize ≤ 100 → trimSpace t.title ≠ "" →
      validateTodo t = none) ∧
    (∀ msg, validateTodo t = some msg →
      postHandler (.parsed t) store insertFails = (handleAPIError 400 msg, store, false)) ∧
    (validateTodo t = none → (postHandler (.parsed t) store insertFails).2.2 = true) := by
  refine ⟨?_, ?_, ?_, ?_, ?_, ?_⟩
  · intro h1; simp [validateTodo, h1]
  · intro h1 h2; simp [validateTodo, h1, h2]
  · intro h1 h2 h3; simp [validateTodo, h1, Nat.not_lt.mpr h2, h3]
  · intro h1 h2 h3; simp [validateTodo, h1, Nat.not_lt.mpr h2, h3]
  · intro msg h; simp [postHandler, h]
  · intro h; cases insertFails <;> simp [postHandler, h]

theorem validationGatesInsertWitness :
    validateTodo ⟨"", "", false⟩ = some errTitleRequired ∧
    postHandler (.parsed ⟨"", "   ", false⟩) emptyStore false
      = (handleAPIError 400 errTitleWhitespace, emptyStore, false) ∧
    (postHandler (.parsed ⟨"", "Buy milk", false⟩) emptyStore false).2.2 = true :=
  ⟨(validationGatesInsert ⟨"", "", false⟩ emptyStore false).1 rfl,
   (validationGatesInsert ⟨"", "   ", false⟩ emptyStore false).2.2.2.2.1 errTitleWhitespace
     ((validationGatesInsert ⟨"", "   ", false⟩ emptyStore false).2.2.1
       (by decide) (by decide) (by decide)),
   (validationGatesInsert ⟨"", "Buy milk", false⟩ emptyStore false).2.2.2.2.2 (by decide)⟩

/-- A title of exactly 100 ASCII bytes. -/
def title100 : String := String.mk (List.replicate 100 'a')

/-- 51 characters of U+00E9, 102 UTF-8 bytes but only 51 characters. -/
def titleWide : String := String.mk (List.replicate 51 (Char.ofNat 233))

/-- Claim C10: `len(todo.Title)` counts UTF-8 bytes, not characters: a
title of exactly 100 bytes never trips the too-long error (and is accepted
outright by both validator variants when it is ordinary text), while a
title of at most 100 characters whose UTF-8 encoding exceeds 100 bytes is
rejected with the too-long error by both variants. -/
theorem titleLengthCountsBytes (t : Todo) :
    (validateTodo ⟨"", title100, false⟩ = none ∧ title100.utf8ByteSize = 100) ∧
    (validateTodo ⟨"", titleWide, false⟩ = some errTitleTooLong ∧
      titleWide.length ≤ 100 ∧ 100 < titleWide.utf8ByteSize) ∧
    (t.title.utf8ByteSize ≤ 100 → validateTodo t ≠ some errTitleTooLong) ∧
    (t.title.utf8ByteSize = 100 → validateTodoMainGo t = none) ∧
    (t.title.length ≤ 100 → 100 < t.title.utf8ByteSize →
      validateTodo t = some errTitleTooLong ∧ validateTodoMainGo t = some errTitleTooLong) := by
  refine ⟨⟨by decide, by decide⟩, ⟨by decide, by decide, by decide⟩, ?_, ?_, ?_⟩
  · intro hbytes h
    simp only [validateTodo] at h
    by_cases h1 : t.title = ""
    · rw [if_pos h1] at h
      exact absurd (Option.some.inj h) (by decide)
    · rw [if_neg h1, if_neg (Nat.not_lt.mpr hbytes)] at h
      by_cases h3 : trimSpace t.title = ""
      · rw [if_pos h3] at h
        exact absurd (Option.some.inj h) (by decide)
      · rw [if_neg h3] at h
        cases h
  · intro hbytes
    have h1 : t.title ≠ "" := by
      intro he
      rw [he] at hbytes
      exact absurd hbytes (by decide)
    simp [validateTodoMainGo, h1, hbytes]
  · intro hchars hbytes
    have h1 : t.title ≠ "" := by
      intro he
      rw [he] at hbytes
      exact absurd hbytes (by decide)
    exact ⟨by simp [validateTodo, h1, hbytes], by simp [validateTodoMainGo, h1, hbytes]⟩

theorem titleLengthCountsBytesWitness :
    ("hi" : String).utf8ByteSize ≤ 100 ∧
    validateTodo ⟨"", "hi", false⟩ ≠ some errTitleTooLong ∧
    validateTodoMainGo ⟨"", title100, false⟩ = none :=
  ⟨by decide,
   (titleLengthCountsBytes ⟨"", "hi", false⟩).2.2.1 (by decide),
   (titleLengthCountsBytes ⟨"", title100, false⟩).2.2.2.1 (by decide)⟩

/-- Claim C3 counterexample: the request body is parsed into the full
`Todo` struct, so a body carrying `done: true` with a valid title is
inserted and echoed back with `done = true` at 201 — creation does not
force `done = false` regardless of the request body. -/
theorem createdDoneFollowsBodyCounterexample :
    (postHandler (.parsed ⟨"", "Buy milk", true⟩) emptyStore false).1.status = 201 ∧
    (postHandler (.parsed ⟨"", "Buy milk", true⟩) emptyStore false).1.body
      = .todoBody ⟨objectIdHexOf 0, "Buy milk", true⟩ := by
  exact ⟨by decide, by decide⟩

/-- Claim C3 (amended): when the parsed body supplies the title only
(`_id` and `done` keep their Go zero values) and the title validates,
`postHandler` answers 201 with a non-empty store-assigned identifier, the
same title, and `done = false`, and a subsequent `getHandler` list
includes that record. -/
theorem insertRoundTripAmended (title : String) (store : TodoStore)
    (hvalid : validateTodo ⟨"", title, false⟩ = none) :
    (postHandler (.parsed ⟨"", title, false⟩) store false).1.status = 201 ∧
    (postHandler (.parsed ⟨"", title, false⟩) store false).1.body
      = .todoBody ⟨objectIdHexOf store.nextOid, title, false⟩ ∧
    objectIdHexOf store.nextOid ≠ "" ∧
    (getHandler (postHandler (.parsed ⟨"", title, false⟩) store false).2.1 false false)
      = ⟨200, .todoList (postHandler (.parsed ⟨"", title, false⟩) store false).2.1.todos⟩ ∧
    Todo.mk (objectIdHexOf store.nextOid) title false
      ∈ (postHandler (.parsed ⟨"", title, false⟩) store false).2.1.todos := by
  refine ⟨?_, ?_, objectIdHexOf_ne_empty store.nextOid, ?_, ?_⟩
  · simp [postHandler, hvalid]
  · simp [postHandler, hvalid, insertOne]
  · simp [getHandler]
  · simp [postHandler, hvalid, insertOne]

theorem insertRoundTripAmendedWitness :
    validateTodo ⟨"", "Buy milk", false⟩ = none ∧
    (postHandler (.parsed ⟨"", "Buy milk", false⟩) emptyStore false).1.status = 201 ∧
    Todo.mk (objectIdHexOf 0) "Buy milk" false
      ∈ (postHandler (.parsed ⟨"", "Buy milk", false⟩) emptyStore false).2.1.todos :=
  ⟨by decide,
   (insertRoundTripAmended "Buy milk" emptyStore (by decide)).1,
   (insertRoundTripAmended "Buy milk" emptyStore (by decide)).2.2.2.2⟩

/-- Claim C4 counterexample: the 400 answer of `updateHandler` for a
malformed identifier is `fiber.Map{"error": "empty id"}`, not the
standardized `APIError` body — so not every non-2xx response carries the
`{status, message, code, detail}` shape. -/
theorem nonStandardErrorBodyCounterexample :
    (updateHandler "notanid" emptyStore false).1.status = 400 ∧
    isApiErrBody (updateHandler "notanid" emptyStore false).1.body = false := by
  exact ⟨by decide, by decide⟩

/-- Claim C4 (amended): every response produced through `handleAPIError`
carries the standardized body whose `code` is `"ERR_"` followed by the
decimal status and whose `status` field equals the response status; but
the malformed-id 400 answers of `updateHandler` and `delHandler` and the
insert-failure 500 answer of `postHandler` are ad-hoc `{"error": ...}`
maps instead. -/
theorem standardErrorBodyAmended (status : Nat) (message : String) :
    handleAPIError status message
      = ⟨status, .apiErr ⟨status, message, "ERR_" ++ toString status,
          "Detailed explanation for " ++ toString status ++ " error"⟩⟩ ∧
    (mkAPIError status message).code = "ERR_" ++ toString status ∧
    (mkAPIError status message).status = status ∧
    (updateHandler "notanid" emptyStore false).1.body = .errMap "empty id" ∧
    (delHandler "notanid" emptyStore false).1.body = .errMap "empty id" ∧
    (postHandler (.parsed ⟨"", "todo", false⟩) emptyStore true).1
      = ⟨500, .errMap "error adding todo"⟩ := by
  exact ⟨rfl, rfl, rfl, by decide, by decide, by decide⟩

/-! ### Claims about identifier parsing and startup -/

/-- Claim C6: `updateHandler` and `delHandler` answer 400 exactly when the
`:id` parameter does not parse as a 24-hex-character ObjectID; for any
parseable identifier, absent transport failure, both answer 200 whatever
the store contains — marking a non-existent id done succeeds, and deleting
the same id twice succeeds both times. -/
theorem idParseDecidesStatus (idParam : String) (store : TodoStore) :
    ((updateHandler idParam store false).1.status = 400 ↔ objectIDFromHex idParam = none) ∧
    ((updateHandler idParam store false).1.status = 200 ↔
      (objectIDFromHex idParam).isSome = true) ∧
    ((delHandler idParam store false).1.status = 400 ↔ objectIDFromHex idParam = none) ∧
    ((delHandler idParam store false).1.status = 200 ↔
      (objectIDFromHex idParam).isSome = true) ∧
    ((objectIDFromHex idParam).isSome = true →
      (delHandler idParam store false).1.status = 200 ∧
      (delHandler idParam (delHandler idParam store false).2 false).1.status = 200) := by
  cases h : objectIDFromHex idParam with
  | none => simp [updateHandler, delHandler, h]
  | some oid => simp [updateHandler, delHandler, h]

theorem idParseDecidesStatusWitness :
    (objectIDFromHex "0123456789abcdef01234567").isSome = true ∧
    (delHandler "0123456789abcdef01234567" emptyStore false).1.status = 200 ∧
    (delHandler "0123456789abcdef01234567"
        (delHandler "0123456789abcdef01234567" emptyStore false).2 false).1.status = 200 :=
  ⟨by decide,
   ((idParseDecidesStatus "0123456789abcdef01234567" emptyStore).2.2.2.2 (by decide)).1,
   ((idParseDecidesStatus "0123456789abcdef01234567" emptyStore).2.2.2.2 (by decide)).2⟩

/-- Claim C5: `initializeDatabase` tries connect-then-ping at most three
times, sleeping 2 seconds after every failed attempt; it returns the
client of the first attempt on which both connect and ping succeed, and
when all three attempts fail it returns the terminal error carrying the
attempt count, which `main` turns into a fatal startup exit. -/
theorem initRetriesThreeTimes (connectOk pingOk : Nat → Bool) :
    ((∀ i, i < 3 → (connectOk i && pingOk i) = false) →
      initializeDatabase connectOk pingOk
        = (.error "failed to connect after 3 attempts", [2, 2, 2]) ∧
      mainStartup connectOk pingOk = .fatal "failed to connect after 3 attempts") ∧
    (∀ k, k < 3 → (connectOk k && pingOk k) = true →
      (∀ j, j < k → (connectOk j && pingOk j) = false) →
      initializeDatabase connectOk pingOk = (.ok k, List.replicate k 2) ∧
      mainStartup connectOk pingOk = .running k) := by
  constructor
  · intro h
    have h0 := h 0 (by omega)
    have h1 := h 1 (by omega)
    have h2 := h 2 (by omega)
    have hinit : initializeDatabase connectOk pingOk
        = (.error "failed to connect after 3 attempts", [2, 2, 2]) := by
      simp [initializeDatabase, initAttempts, h0, h1, h2]
    exact ⟨hinit, by simp [mainStartup, hinit]⟩
  · intro k hk hsucc hprev
    interval_cases k
    · have hinit : initializeDatabase connectOk pingOk = (.ok 0, []) := by
        simp [initializeDatabase, initAttempts, hsucc]
      exact ⟨by simpa using hinit, by simp [mainStartup, hinit]⟩
    · have h0 := hprev 0 (by omega)
      have hinit : initializeDatabase connectOk pingOk = (.ok 1, [2]) := by
        simp [initializeDatabase, initAttempts, h0, hsucc]
      exact ⟨by simpa using hinit, by simp [mainStartup, hinit]⟩
    · have h0 := hprev 0 (by omega)
      have h1 := hprev 1 (by omega)
      have hinit : initializeDatabase connectOk pingOk = (.ok 2, [2, 2]) := by
        simp [initializeDatabase, initAttempts, h0, h1, hsucc]
      exact ⟨by simpa using hinit, by simp [mainStartup, hinit]⟩

/-- Connect (and hence ping) fails at every attempt. -/
def allFailOracle : Nat → Bool := fun _ => false

/-- Connect and ping succeed exactly on attempt index 1. -/
def okAtOne : Nat → Bool := fun i => i == 1

theorem initRetriesThreeTimesWitness :
    initializeDatabase allFailOracle allFailOracle
      = (.error "failed to connect after 3 attempts", [2, 2, 2]) ∧
    mainStartup allFailOracle allFailOracle = .fatal "failed to connect after 3 attempts" ∧
    initializeDatabase okAtOne okAtOne = (.ok 1, List.replicate 1 2) :=
  ⟨((initRetriesThreeTimes allFailOracle allFailOracle).1 (by decide)).1,
   ((initRetriesThreeTimes allFailOracle allFailOracle).1 (by decide)).2,
   ((initRetriesThreeTimes okAtOne okAtOne).2 1 (by decide) (by decide)
     (by intro j hj; interval_cases j; decide)).1⟩

end GoTodo
